import Mathlib

/-!
Verification of the Wayland clipboard protocol client of
pkg/clipboard/internal/wayland/protocol.go and the multi-format clipboard
launcher of pkg/clipboard.

Modelling conventions:
* Go byte slices and strings are modelled as List Nat, one entry per byte.
* Go uint32 / uint16 arithmetic is Nat arithmetic with an explicit
  reduction modulo 2 ^ 32 / 2 ^ 16 at exactly the places where the Go
  code converts or truncates.
* File descriptors are Int, as in the Go code, where -1 means
  "no descriptor attached".
* The blocking socket is replaced by a script: the sequence of results
  that successive readMsg calls would produce (or, for the byte-level
  transport model, the sequence of byte chunks successive Recvmsg calls
  would deliver).  Writes to the socket and to received descriptors are
  recorded as values instead of performed.
-/

namespace Wayland

/-- Object ID of wl_display (protocol.go const block). -/
def idDisplay : Nat := 1

/-- Object ID of wl_registry. -/
def idRegistry : Nat := 2

/-- Object ID of the first sync callback. -/
def idCallback1 : Nat := 3

/-- Object ID of wl_seat. -/
def idSeat : Nat := 4

/-- Object ID of zwlr_data_control_manager_v1. -/
def idDCManager : Nat := 5

/-- Object ID of zwlr_data_control_source_v1. -/
def idDCSource : Nat := 6

/-- Object ID of zwlr_data_control_device_v1. -/
def idDCDevice : Nat := 7

/-- Object ID of the second sync callback. -/
def idCallback2 : Nat := 8

/-- binary.LittleEndian.PutUint32: the four little-endian bytes of v
(an arbitrary Nat is reduced to its low 32 bits byte by byte, matching
the uint32 argument type). -/
def putUint32 (v : Nat) : List Nat :=
  [v % 256, v / 256 % 256, v / 65536 % 256, v / 16777216 % 256]

/-- binary.LittleEndian.Uint32 applied to the first four bytes of b. -/
def leUint32 (b : List Nat) : Nat :=
  b.getD 0 0 + b.getD 1 0 * 256 + b.getD 2 0 * 65536 + b.getD 3 0 * 16777216

/-- encodeUint32 from protocol.go; the Go parameter is a uint32, so the
value is reduced modulo 2 ^ 32. -/
def encodeUint32 (v : Nat) : List Nat := putUint32 (v % 2 ^ 32)

/-- Go's (n + 3) &^ 3: round n up to the next multiple of four. -/
def pad4 (n : Nat) : Nat := (n + 3) / 4 * 4

/-- encodeString from protocol.go: a uint32 length (string length plus one
for the null terminator, truncated to 32 bits when stored), the bytes, the
null terminator, then zero padding to a 4-byte boundary.  The padding is
computed from the untruncated length, exactly as in the Go code. -/
def encodeString (s : List Nat) : List Nat :=
  putUint32 ((s.length + 1) % 2 ^ 32) ++
    ((s ++ [0]) ++ List.replicate (pad4 (s.length + 1) - (s.length + 1)) 0)

/-- Errors returned by decodeString (the two fmt.Errorf calls). -/
inductive DecodeErr : Type
  /-- "wayland: short string length field" -/
  | shortLength : DecodeErr
  /-- "wayland: short string data" -/
  | shortData : DecodeErr
deriving DecidableEq, Repr

/-- decodeString from protocol.go: read the 4-byte length; a declared
length of zero yields the empty string with only those four bytes
consumed; otherwise require pad4 length bytes, return the bytes before
the null terminator and the buffer after the padded region. -/
def decodeString (data : List Nat) : Except DecodeErr (List Nat × List Nat) :=
  if data.length < 4 then .error .shortLength
  else
    let length := leUint32 data
    let rest := data.drop 4
    if length = 0 then .ok ([], rest)
    else if rest.length < pad4 length then .error .shortData
    else .ok (rest.take (length - 1), rest.drop (pad4 length))

/-- Bytes put on the wire by sendMsg: an 8-byte header (object ID, then
opcode in the low 16 bits and total size in the high 16 bits of one
little-endian uint32) followed by the arguments.  The Go size is a
uint16, so it is reduced modulo 2 ^ 16, and the argument bytes are cut
to whatever fits in the allocated buffer, as the Go copy does. -/
def sendMsgBytes (objectID opcode : Nat) (args : List Nat) : List Nat :=
  putUint32 (objectID % 2 ^ 32) ++
    putUint32 (opcode % 65536 + (8 + args.length) % 65536 * 65536) ++
    args.take ((8 + args.length) % 65536 - 8)

/-- One complete message as returned by readMsg. -/
structure RMsg where
  objectID : Nat
  opcode : Nat
  payload : List Nat
  fd : Int
deriving DecidableEq, Repr

/-- The mutable state of a waylandConn: the rolling inbound byte buffer
and the FIFO queue of received file descriptors. -/
structure ConnSt where
  inBuf : List Nat
  pendingFds : List Int
deriving DecidableEq, Repr

/-- The in-buffer check at the top of readMsg's loop: if at least eight
header bytes are present and at least size bytes are buffered (with
size at least eight), slice off one message. -/
def tryParse (inBuf : List Nat) : Option (Nat × Nat × List Nat × List Nat) :=
  if 8 ≤ inBuf.length then
    let sizeOpcode := leUint32 (inBuf.drop 4)
    let size := sizeOpcode / 65536
    if 8 ≤ size ∧ size ≤ inBuf.length then
      some (leUint32 inBuf, sizeOpcode % 65536, (inBuf.take size).drop 8, inBuf.drop size)
    else none
  else none

/-- readMsg from protocol.go, with the blocking Recvmsg calls replaced
by a script of chunks, each a list of data bytes paired with the file
descriptors delivered in its ancillary control message.  Returns the
parsed message (with the oldest queued descriptor attached, or -1), the
connection state after the call, and the unconsumed chunks; none means
the script ran out while readMsg would still block (or a chunk of zero
bytes signalled an orderly close, which readMsg turns into an error). -/
def readMsgChunks (st : ConnSt) (chunks : List (List Nat × List Int)) :
    Option (RMsg × ConnSt × List (List Nat × List Int)) :=
  match tryParse st.inBuf with
  | some (oid, op, pl, rest) =>
    match st.pendingFds with
    | [] => some (⟨oid, op, pl, -1⟩, ⟨rest, []⟩, chunks)
    | f :: fs => some (⟨oid, op, pl, f⟩, ⟨rest, fs⟩, chunks)
  | none =>
    match chunks with
    | [] => none
    | c :: more =>
      if c.1.length = 0 then none
      else readMsgChunks ⟨st.inBuf ++ c.1, st.pendingFds ++ c.2⟩ more

/-- One result of a readMsg call as consumed by the bootstrap and serve
loops of Serve: either a message (with fd = -1 when no descriptor was
attached) or a receive error.  A loop that consumes the whole script
without terminating corresponds to Serve still blocking in readMsg. -/
inductive Ev : Type
  | msg (objectID opcode : Nat) (payload : List Nat) (fd : Int)
  | recvErr
deriving DecidableEq, Repr

/-- An action Serve performs on a received file descriptor
(syscall.Write of payload bytes, or syscall.Close). -/
inductive FdAction : Type
  | write (fd : Int) (data : List Nat)
  | close (fd : Int)
deriving DecidableEq, Repr

/-- A request frame passed to sendMsg: target object, opcode, argument
bytes. -/
structure SentMsg where
  objectID : Nat
  opcode : Nat
  args : List Nat
deriving DecidableEq, Repr

/-- The registry-discovery state of Serve step 3: the numeric names of
the two required globals and whether each has been seen.  Zero values
as in Go. -/
structure Globals where
  seatName : Nat
  dcManagerName : Nat
  seatFound : Bool
  dcManagerFound : Bool
deriving DecidableEq, Repr

/-- Initial discovery state (Go zero values). -/
def initGlobals : Globals := ⟨0, 0, false, false⟩

/-- The interface string "wl_seat" as ASCII bytes. -/
def wlSeatIface : List Nat := [119, 108, 95, 115, 101, 97, 116]

/-- The interface string "zwlr_data_control_manager_v1" as ASCII bytes. -/
def dcManagerIface : List Nat :=
  [122, 119, 108, 114, 95, 100, 97, 116, 97, 95, 99, 111, 110, 116, 114, 111,
   108, 95, 109, 97, 110, 97, 103, 101, 114, 95, 118, 49]

/-- Handling of one wl_registry global event in Serve's first loop:
payloads of fewer than four bytes and string-decoding failures are
skipped; a matching interface records the (most recent) numeric name. -/
def loop1Global (g : Globals) (payload : List Nat) : Globals :=
  if payload.length < 4 then g
  else
    let name := leUint32 payload
    match decodeString (payload.drop 4) with
    | .error _ => g
    | .ok (iface, _) =>
      if iface = wlSeatIface then { g with seatName := name, seatFound := true }
      else if iface = dcManagerIface then
        { g with dcManagerName := name, dcManagerFound := true }
      else g

/-- Result of one of the two bootstrap read loops: still waiting for
events, terminated by a readMsg error (Serve returns that error), or
reached the sync callback's done event with the remaining script. -/
inductive LoopRes (α : Type) : Type
  | blocked (acts : List FdAction)
  | errored (acts : List FdAction)
  | done (val : α) (acts : List FdAction) (rest : List Ev)
deriving DecidableEq, Repr

/-- Prefix earlier fd actions onto a loop result. -/
def prepend1 {α : Type} (acts : List FdAction) : LoopRes α → LoopRes α
  | .blocked as => .blocked (acts ++ as)
  | .errored as => .errored (acts ++ as)
  | .done v as rest => .done v (acts ++ as) rest

/-- All fd actions recorded in a loop result. -/
def LoopRes.acts {α : Type} : LoopRes α → List FdAction
  | .blocked as => as
  | .errored as => as
  | .done _ as _ => as

/-- Serve step 3: read events until the first sync callback fires,
closing every delivered fd immediately and recording matching
globals. -/
def loop1 : Globals → List Ev → LoopRes Globals
  | _, [] => .blocked []
  | _, Ev.recvErr :: _ => .errored []
  | g, Ev.msg o op pl f :: rest =>
    let acts := if 0 ≤ f then [FdAction.close f] else []
    if o = idRegistry ∧ op = 0 then prepend1 acts (loop1 (loop1Global g pl) rest)
    else if o = idCallback1 ∧ op = 0 then .done g acts rest
    else prepend1 acts (loop1 g rest)

/-- Serve step 10's loop: read events until the second sync callback
fires, closing every delivered fd immediately. -/
def loop2 : List Ev → LoopRes Unit
  | [] => .blocked []
  | Ev.recvErr :: _ => .errored []
  | Ev.msg o op _ f :: rest =>
    let acts := if 0 ≤ f then [FdAction.close f] else []
    if o = idCallback2 ∧ op = 0 then .done () acts rest
    else prepend1 acts (loop2 rest)

/-- The mime type the serve loop extracts from a send event's payload:
decodeString's first result, with a decoding error ignored (Go returns
the empty string alongside the error). -/
def sendMime (payload : List Nat) : List Nat :=
  match decodeString payload with
  | .ok (s, _) => s
  | .error _ => []

/-- Go map lookup formats[mimeType] over the association list. -/
def lookupFmt (k : List Nat) : List (List Nat × List Nat) → Option (List Nat)
  | [] => none
  | p :: rest => if p.1 = k then some p.2 else lookupFmt k rest

/-- One iteration body of the serve loop (protocol.go lines 303-321):
the fd actions taken and whether the loop returns.  Events on objects
other than the data source close their fd and continue; a send event
writes the looked-up payload (if any) and closes its fd; cancelled
returns; any other data-source opcode does nothing. -/
def loop3Step (formats : List (List Nat × List Nat)) (o op : Nat)
    (payload : List Nat) (f : Int) : List FdAction × Bool :=
  if o ≠ idDCSource then
    (if 0 ≤ f then [FdAction.close f] else [], false)
  else if op = 0 then
    (if 0 ≤ f then
      match lookupFmt (sendMime payload) formats with
      | some data => [FdAction.write f data, FdAction.close f]
      | none => [FdAction.close f]
     else [], false)
  else if op = 1 then ([], true)
  else ([], false)

/-- Result of the serve loop: still waiting for events, or returned
(always successfully — a readMsg error is treated as done). -/
inductive Loop3Res : Type
  | blocked (acts : List FdAction)
  | finished (acts : List FdAction)
deriving DecidableEq, Repr

/-- Prefix earlier fd actions onto a serve-loop result. -/
def prepend3 (acts : List FdAction) : Loop3Res → Loop3Res
  | .blocked as => .blocked (acts ++ as)
  | .finished as => .finished (acts ++ as)

/-- All fd actions recorded in a serve-loop result. -/
def Loop3Res.acts : Loop3Res → List FdAction
  | .blocked as => as
  | .finished as => as

/-- Serve step 11, the event loop: serve paste requests until the
source is cancelled; a readMsg error also ends the loop with no
error. -/
def loop3 (formats : List (List Nat × List Nat)) : List Ev → Loop3Res
  | [] => .blocked []
  | Ev.recvErr :: _ => .finished []
  | Ev.msg o op pl f :: rest =>
    let step := loop3Step formats o op pl f
    if step.2 then .finished step.1
    else prepend3 step.1 (loop3 formats rest)

/-- Errors Serve can return after the connection is up. -/
inductive ServeErr : Type
  /-- an error returned by readMsg and propagated by return err -/
  | ioErr
  /-- "wayland: ... not found": the named required interface was never
  advertised (interface name as ASCII bytes) -/
  | missingGlobal (iface : List Nat)
deriving DecidableEq, Repr

/-- The observable result of one Serve run: the returned value, every
request frame passed to sendMsg in order, every fd action in order, and
whether the deferred close of the connection socket ran (it runs on
every return path). -/
structure ServeRes where
  outcome : Except ServeErr Unit
  sent : List SentMsg
  fdActs : List FdAction
  connClosed : Bool
deriving Repr

/-- The two requests Serve sends before reading anything:
get_registry on the display and the first sync. -/
def bootSends : List SentMsg :=
  [⟨idDisplay, 1, encodeUint32 idRegistry⟩,
   ⟨idDisplay, 0, encodeUint32 idCallback1⟩]

/-- The requests Serve sends between the two sync round trips, given
the discovered global names and the offer table (steps 4-10): bind
wl_seat, bind the data-control manager, create_data_source, one offer
per table entry in order, get_data_device, set_selection, second
sync. -/
def setupSends (g : Globals) (formats : List (List Nat × List Nat)) : List SentMsg :=
  [⟨idRegistry, 0, encodeUint32 g.seatName ++ encodeString wlSeatIface ++
      encodeUint32 1 ++ encodeUint32 idSeat⟩,
   ⟨idRegistry, 0, encodeUint32 g.dcManagerName ++ encodeString dcManagerIface ++
      encodeUint32 2 ++ encodeUint32 idDCManager⟩,
   ⟨idDCManager, 0, encodeUint32 idDCSource⟩] ++
  formats.map (fun p => ⟨idDCSource, 0, encodeString p.1⟩) ++
  [⟨idDCManager, 1, encodeUint32 idDCDevice ++ encodeUint32 idSeat⟩,
   ⟨idDCDevice, 0, encodeUint32 idDCSource⟩,
   ⟨idDisplay, 0, encodeUint32 idCallback2⟩]

/-- Serve from protocol.go, from the point where the connection has been
established (line 176 on), driven by the script of readMsg results.
Returns none when the script is exhausted while Serve would still block;
otherwise the full observable result.  Requests are assumed written
without error, which a scripted peer never refuses. -/
def serveConn (formats : List (List Nat × List Nat)) (events : List Ev) :
    Option ServeRes :=
  match loop1 initGlobals events with
  | .blocked _ => none
  | .errored acts1 => some ⟨.error .ioErr, bootSends, acts1, true⟩
  | .done g acts1 rest1 =>
    if g.seatFound = false then
      some ⟨.error (.missingGlobal wlSeatIface), bootSends, acts1, true⟩
    else if g.dcManagerFound = false then
      some ⟨.error (.missingGlobal dcManagerIface), bootSends, acts1, true⟩
    else
      match loop2 rest1 with
      | .blocked _ => none
      | .errored acts2 =>
        some ⟨.error .ioErr, bootSends ++ setupSends g formats, acts1 ++ acts2, true⟩
      | .done _ acts2 rest2 =>
        match loop3 formats rest2 with
        | .blocked _ => none
        | .finished acts3 =>
          some ⟨.ok (), bootSends ++ setupSends g formats,
            acts1 ++ acts2 ++ acts3, true⟩

/-- A string of 2 ^ 32 - 1 NUL-free bytes: its length field, length plus
one, overflows the uint32 to zero. -/
def bigS : List Nat := List.replicate (2 ^ 32 - 1) 65

/-- The scripted peer of testable property C7 (plus the two events that
let the session run to completion): global(name=7, wl_seat),
global(name=9, zwlr_data_control_manager_v1), the first sync's done,
the second sync's done, then cancelled. -/
def script7 : List Ev :=
  [Ev.msg idRegistry 0 (encodeUint32 7 ++ encodeString wlSeatIface) (-1),
   Ev.msg idRegistry 0 (encodeUint32 9 ++ encodeString dcManagerIface) (-1),
   Ev.msg idCallback1 0 [] (-1),
   Ev.msg idCallback2 0 [] (-1),
   Ev.msg idDCSource 1 [] (-1)]

/-- Which external call WriteMultiFormat makes (pkg/clipboard):
the atotto plain-text fallback, or spawning the clipboard daemon. -/
inductive ClipCall : Type
  | fallbackWrite (plain : List Nat)
  | spawnDaemon (html plain : List Nat)
deriving DecidableEq, Repr

/-- WriteMultiFormat's dispatch: if the WAYLAND_DISPLAY environment
variable is empty (os.Getenv returns the empty string when it is
unset), fall back to a plain-text-only clipboard write; otherwise spawn
the clipboard-server daemon with both formats. -/
def writeMultiFormatCall (waylandDisplay html plain : List Nat) : ClipCall :=
  if waylandDisplay = [] then .fallbackWrite plain else .spawnDaemon html plain

/-- WriteMultiFormat with its two callees abstracted, returning whatever
the taken branch returns (the Go result type error is an arbitrary
result type here). -/
def writeMultiFormat {α : Type} (waylandDisplay : List Nat)
    (writeAll : List Nat → α) (spawnServer : List Nat → List Nat → α)
    (html plain : List Nat) : α :=
  if waylandDisplay = [] then writeAll plain else spawnServer html plain


theorem putUint32_length (v : Nat) : (putUint32 v).length = 4 := rfl

theorem leUint32_putUint32 (v : Nat) (r : List Nat) (hv : v < 2 ^ 32) :
    leUint32 (putUint32 v ++ r) = v := by
  simp only [putUint32, leUint32, List.cons_append, List.nil_append,
    List.getD_cons_zero, List.getD_cons_succ]
  omega

theorem drop4_putUint32 (v : Nat) (r : List Nat) :
    (putUint32 v ++ r).drop 4 = r := rfl

/-- Round trip of the Wayland string codec, for strings whose length
field does not overflow the uint32. -/
theorem decode_encode_aux (s : List Nat) (hlen : s.length + 1 < 2 ^ 32) :
    decodeString (encodeString s) = Except.ok (s, []) := by
  have hmod : (s.length + 1) % 2 ^ 32 = s.length + 1 := Nat.mod_eq_of_lt hlen
  have hpad : s.length + 1 ≤ pad4 (s.length + 1) := by unfold pad4; omega
  have hlen4 : (encodeString s).length = 4 + pad4 (s.length + 1) := by
    simp [encodeString, putUint32]
    omega
  have hdrop : (encodeString s).drop 4 =
      (s ++ [0]) ++ List.replicate (pad4 (s.length + 1) - (s.length + 1)) 0 := by
    rw [encodeString, drop4_putUint32]
  have hUint : leUint32 (encodeString s) = s.length + 1 := by
    rw [encodeString, hmod, leUint32_putUint32 _ _ hlen]
  have hrestlen :
      ((s ++ [0]) ++ List.replicate (pad4 (s.length + 1) - (s.length + 1)) 0).length =
        pad4 (s.length + 1) := by
    simp
    omega
  have htake :
      ((s ++ [0]) ++ List.replicate (pad4 (s.length + 1) - (s.length + 1)) 0).take s.length
        = s := by
    rw [List.append_assoc]
    exact List.take_left s ([0] ++ List.replicate (pad4 (s.length + 1) - (s.length + 1)) 0)
  have hdropAll :
      ((s ++ [0]) ++ List.replicate (pad4 (s.length + 1) - (s.length + 1)) 0).drop
        (pad4 (s.length + 1)) = [] := by
    apply List.drop_eq_nil_of_le
    omega
  rw [decodeString]
  rw [if_neg (by omega)]
  simp only [hUint, hdrop]
  rw [if_neg (by omega)]
  rw [if_neg (by rw [hrestlen]; omega)]
  simp only [Nat.add_sub_cancel, htake, hdropAll]

/-- Claim C3 (amended): for every string s with no NUL bytes whose length
plus one is below 2 ^ 32 (so that the uint32 length field does not
overflow), decodeString applied to encodeString s returns exactly s, an
empty remaining buffer, and no error. -/
theorem decode_encode_roundtrip (s : List Nat) (_hnul : ∀ b ∈ s, b ≠ 0)
    (hlen : s.length + 1 < 2 ^ 32) :
    decodeString (encodeString s) = Except.ok (s, []) :=
  decode_encode_aux s hlen

/-- Witness for decode_encode_roundtrip at the two-byte string "hi". -/
theorem decode_encode_roundtrip_witness :
    (∀ b ∈ [104, 105], b ≠ 0) ∧
      decodeString (encodeString [104, 105]) = Except.ok ([104, 105], []) :=
  ⟨by decide, decode_encode_roundtrip [104, 105] (by decide) (by norm_num)⟩

theorem bigS_length : bigS.length = 2 ^ 32 - 1 :=
  List.length_replicate _ _

theorem encode_bigS : encodeString bigS = putUint32 0 ++ (bigS ++ [0]) := by
  have h1 : bigS.length + 1 = 2 ^ 32 := by rw [bigS_length]; norm_num
  have h2 : pad4 (2 ^ 32) = 2 ^ 32 := by unfold pad4; norm_num
  rw [encodeString, h1, h2, Nat.mod_self, Nat.sub_self, List.replicate_zero,
    List.append_nil]

theorem decode_encode_bigS :
    decodeString (encodeString bigS) = Except.ok ([], bigS ++ [0]) := by
  have hU : leUint32 (encodeString bigS) = 0 := by
    rw [encode_bigS, leUint32_putUint32 0 _ (by norm_num)]
  have hL : 4 ≤ (encodeString bigS).length := by
    rw [encode_bigS, List.length_append, putUint32_length]
    omega
  rw [decodeString, if_neg (by omega)]
  simp only [hU]
  rw [if_pos trivial, encode_bigS, drop4_putUint32]

/-- Counterexample to claim C3 as stated: the round trip
decodeString (encodeString s) = (s, "", nil) fails for the NUL-free
string of 2 ^ 32 - 1 bytes 'A', because the uint32 length field
overflows to zero and decodeString then reads a null string. -/
theorem decode_encode_not_universal :
    ¬ ∀ s : List Nat, (∀ b ∈ s, b ≠ 0) →
        decodeString (encodeString s) = Except.ok (s, []) := by
  intro h
  have h0 := h bigS (by
    intro b hb
    have hb' : b = 65 := List.eq_of_mem_replicate hb
    omega)
  rw [decode_encode_bigS] at h0
  have h1 : ([] : List Nat) = bigS := by
    have := Except.ok.inj h0
    exact congrArg Prod.fst this
  have h2 : bigS.length = 0 := by rw [← h1]; rfl
  rw [bigS_length] at h2
  norm_num at h2

/-- Claim C10 (amended): a buffer of at least four bytes whose leading
little-endian length field is zero decodes to the empty (null) string
with exactly those four bytes consumed and no error; and encodeString
never produces a length-0 encoding for inputs whose length plus one is
below 2 ^ 32 (a zero length field arises only through uint32 overflow). -/
theorem decode_zero_length :
    (∀ data : List Nat, 4 ≤ data.length → leUint32 data = 0 →
        decodeString data = Except.ok ([], data.drop 4)) ∧
      ∀ s : List Nat, s.length + 1 < 2 ^ 32 → leUint32 (encodeString s) ≠ 0 := by
  constructor
  · intro data h4 h0
    rw [decodeString, if_neg (by omega)]
    simp only [h0]
    rw [if_pos trivial]
  · intro s hlen
    have hmod : (s.length + 1) % 2 ^ 32 = s.length + 1 := Nat.mod_eq_of_lt hlen
    rw [encodeString, hmod, leUint32_putUint32 _ _ hlen]
    omega

/-- Witness for decode_zero_length: a concrete five-byte buffer with a
zero length field, and the one-byte string [104]. -/
theorem decode_zero_length_witness :
    decodeString [0, 0, 0, 0, 9] = Except.ok ([], [9]) ∧
      leUint32 (encodeString [104]) ≠ 0 :=
  ⟨decode_zero_length.1 [0, 0, 0, 0, 9] (by decide) (by decide),
   decode_zero_length.2 [104] (by norm_num)⟩

/-- Counterexample to claim C10 as stated: its side condition that
encodeString never produces a length-0 encoding fails at the string of
2 ^ 32 - 1 bytes 'A', whose length field overflows the uint32 to zero. -/
theorem decode_zero_not_universal :
    ¬ ((∀ data : List Nat, 4 ≤ data.length → leUint32 data = 0 →
          decodeString data = Except.ok ([], data.drop 4)) ∧
        ∀ s : List Nat, leUint32 (encodeString s) ≠ 0) := by
  intro h
  apply h.2 bigS
  rw [encode_bigS, leUint32_putUint32 0 _ (by norm_num)]

theorem leUint32_append_left (l r : List Nat) (h : 4 ≤ l.length) :
    leUint32 (l ++ r) = leUint32 l := by
  unfold leUint32
  rw [List.getD_append _ _ _ _ (by omega), List.getD_append _ _ _ _ (by omega),
    List.getD_append _ _ _ _ (by omega), List.getD_append _ _ _ _ (by omega)]

theorem sendMsgBytes_eq (oid op : Nat) (args : List Nat)
    (h3 : 8 + args.length < 65536) :
    sendMsgBytes oid op args =
      putUint32 (oid % 2 ^ 32) ++
        (putUint32 (op % 65536 + (8 + args.length) * 65536) ++ args) := by
  rw [sendMsgBytes, Nat.mod_eq_of_lt h3, Nat.add_sub_cancel_left, List.take_length,
    List.append_assoc]

theorem sendMsgBytes_length (oid op : Nat) (args : List Nat)
    (h3 : 8 + args.length < 65536) :
    (sendMsgBytes oid op args).length = 8 + args.length := by
  rw [sendMsgBytes_eq oid op args h3]
  simp [putUint32]
  omega

/-- A complete sendMsg frame sitting at the front of the buffer parses
back to exactly the message that was sent. -/
theorem tryParse_sendMsg (oid op : Nat) (args : List Nat)
    (h1 : oid < 2 ^ 32) (h2 : op < 65536) (h3 : 8 + args.length < 65536) :
    tryParse (sendMsgBytes oid op args) = some (oid, op, args, []) := by
  have hw : op % 65536 + (8 + args.length) * 65536 < 2 ^ 32 := by omega
  have hlen := sendMsgBytes_length oid op args h3
  have hdrop4 : (sendMsgBytes oid op args).drop 4 =
      putUint32 (op % 65536 + (8 + args.length) * 65536) ++ args := by
    rw [sendMsgBytes_eq oid op args h3, drop4_putUint32]
  have hso : leUint32 ((sendMsgBytes oid op args).drop 4) =
      op % 65536 + (8 + args.length) * 65536 := by
    rw [hdrop4, leUint32_putUint32 _ _ hw]
  have hsize : (op % 65536 + (8 + args.length) * 65536) / 65536 = 8 + args.length := by
    omega
  have hop : (op % 65536 + (8 + args.length) * 65536) % 65536 = op := by
    omega
  have hoid : leUint32 (sendMsgBytes oid op args) = oid := by
    rw [sendMsgBytes_eq oid op args h3, Nat.mod_eq_of_lt h1,
      leUint32_putUint32 _ _ h1]
  have hdrop8 : (sendMsgBytes oid op args).drop 8 = args := by
    have h44 : (sendMsgBytes oid op args).drop 8 =
        ((sendMsgBytes oid op args).drop 4).drop 4 := by
      rw [List.drop_drop]
    rw [h44, hdrop4, drop4_putUint32]
  rw [tryParse]
  rw [if_pos (by omega)]
  simp only [hso, hsize, hop, hoid]
  rw [if_pos ⟨by omega, by omega⟩, ← hlen, List.take_length, hdrop8,
    List.drop_length]

/-- A strict front fragment of a sendMsg frame never parses: either the
header is incomplete or the declared size exceeds the buffered bytes. -/
theorem tryParse_incomplete (oid op : Nat) (args buf rest : List Nat)
    (h2 : op < 65536) (h3 : 8 + args.length < 65536)
    (hsplit : buf ++ rest = sendMsgBytes oid op args) (hrest : rest ≠ []) :
    tryParse buf = none := by
  have hlenM := sendMsgBytes_length oid op args h3
  have hbuflt : buf.length < 8 + args.length := by
    have := congrArg List.length hsplit
    rw [List.length_append, hlenM] at this
    have : buf.length + rest.length = 8 + args.length := this
    have hr : rest.length ≠ 0 := fun h => hrest (List.length_eq_zero.mp h)
    omega
  by_cases h8 : 8 ≤ buf.length
  · have hw : op % 65536 + (8 + args.length) * 65536 < 2 ^ 32 := by omega
    have hdropApp : (buf ++ rest).drop 4 = buf.drop 4 ++ rest :=
      List.drop_append_of_le_length (by omega)
    have hbd4 : 4 ≤ (buf.drop 4).length := by
      rw [List.length_drop]
      omega
    have hso : leUint32 (buf.drop 4) = op % 65536 + (8 + args.length) * 65536 := by
      have e1 : leUint32 ((buf ++ rest).drop 4) =
          op % 65536 + (8 + args.length) * 65536 := by
        rw [hsplit, sendMsgBytes_eq oid op args h3, drop4_putUint32,
          leUint32_putUint32 _ _ hw]
      rw [hdropApp, leUint32_append_left _ _ hbd4] at e1
      exact e1
    rw [tryParse, if_pos h8]
    simp only [hso]
    rw [if_neg]
    intro hcontra
    have : (op % 65536 + (8 + args.length) * 65536) / 65536 = 8 + args.length := by
      omega
    rw [this] at hcontra
    omega
  · rw [tryParse, if_neg h8]

/-- Feeding the chunks of any non-empty-chunk partition of a frame to
the stateful reader, starting from any buffered front fragment of that
frame, yields exactly the original message with nothing left over. -/
theorem readMsgChunks_run (oid op : Nat) (args : List Nat)
    (h1 : oid < 2 ^ 32) (h2 : op < 65536) (h3 : 8 + args.length < 65536) :
    ∀ (chunks : List (List Nat)) (buf : List Nat),
      buf ++ chunks.flatten = sendMsgBytes oid op args →
      (∀ c ∈ chunks, c ≠ []) →
      readMsgChunks ⟨buf, []⟩ (chunks.map fun c => (c, ([] : List Int))) =
        some (⟨oid, op, args, -1⟩, ⟨[], []⟩, []) := by
  intro chunks
  induction chunks with
  | nil =>
    intro buf hjoin _
    rw [List.flatten_nil, List.append_nil] at hjoin
    subst hjoin
    rw [List.map_nil, readMsgChunks, tryParse_sendMsg oid op args h1 h2 h3]
  | cons c cs ih =>
    intro buf hjoin hne
    have hc : c ≠ [] := hne c (List.mem_cons_self c cs)
    have hjoin' : (buf ++ c) ++ cs.flatten = sendMsgBytes oid op args := by
      rw [List.append_assoc]
      rw [List.flatten_cons] at hjoin
      exact hjoin
    have hrest : c ++ cs.flatten ≠ [] := by
      intro h
      exact hc (List.append_eq_nil.mp h).1
    have hparse : tryParse buf = none := by
      apply tryParse_incomplete oid op args buf (c ++ cs.flatten) h2 h3 _ hrest
      rw [← List.append_assoc]
      exact hjoin'
    rw [List.map_cons, readMsgChunks, hparse]
    simp only
    rw [if_neg (by
      intro h0
      exact hc (List.length_eq_zero.mp h0))]
    exact ih (buf ++ c) hjoin' fun c' h' => hne c' (List.mem_cons_of_mem c h')

/-- Claim C4: a well-formed wire frame, split into any sequence of
non-empty chunks delivered by successive underlying receives, is
reconstructed by the stateful reader as exactly one message equal to
the original (same object ID, opcode and payload), leaving an empty
buffer; a further read on the drained state produces no extra
message. -/
theorem readMsg_fragmentation (oid op : Nat) (args : List Nat)
    (chunks : List (List Nat))
    (h1 : oid < 2 ^ 32) (h2 : op < 65536) (h3 : 8 + args.length < 65536)
    (hjoin : chunks.flatten = sendMsgBytes oid op args)
    (hne : ∀ c ∈ chunks, c ≠ []) :
    readMsgChunks ⟨[], []⟩ (chunks.map fun c => (c, ([] : List Int))) =
        some (⟨oid, op, args, -1⟩, ⟨[], []⟩, []) ∧
      readMsgChunks ⟨[], []⟩ [] = none :=
  ⟨readMsgChunks_run oid op args h1 h2 h3 chunks []
      (by rw [List.nil_append]; exact hjoin) hne,
   by rw [readMsgChunks]; rfl⟩

/-- Witness for readMsg_fragmentation: the frame for object 1, opcode 0,
empty payload, split into its two four-byte halves. -/
theorem readMsg_fragmentation_witness :
    ([[1, 0, 0, 0], [0, 0, 8, 0]] : List (List Nat)).flatten = sendMsgBytes 1 0 [] ∧
      readMsgChunks ⟨[], []⟩
          ([[1, 0, 0, 0], [0, 0, 8, 0]].map fun c => (c, ([] : List Int))) =
        some (⟨1, 0, [], -1⟩, ⟨[], []⟩, []) :=
  ⟨by decide,
   (readMsg_fragmentation 1 0 [] [[1, 0, 0, 0], [0, 0, 8, 0]] (by norm_num)
      (by norm_num) (by norm_num) (by decide) (by decide)).1⟩

theorem prepend1_acts {α : Type} (a : List FdAction) (r : LoopRes α) :
    (prepend1 a r).acts = a ++ r.acts := by
  cases r <;> rfl

theorem prepend3_acts (a : List FdAction) (r : Loop3Res) :
    (prepend3 a r).acts = a ++ r.acts := by
  cases r <;> rfl

theorem loop3_cons_msg (formats : List (List Nat × List Nat)) (o op : Nat)
    (pl : List Nat) (f : Int) (rest : List Ev) :
    loop3 formats (Ev.msg o op pl f :: rest) =
      if (loop3Step formats o op pl f).2 then
        Loop3Res.finished (loop3Step formats o op pl f).1
      else prepend3 (loop3Step formats o op pl f).1 (loop3 formats rest) := rfl

theorem loop3Step_send (formats : List (List Nat × List Nat)) (m : List Nat)
    (f : Int) (hf : 0 ≤ f) (hlen : m.length + 1 < 2 ^ 32) :
    loop3Step formats idDCSource 0 (encodeString m) f =
      ((match lookupFmt m formats with
        | some data => [FdAction.write f data, FdAction.close f]
        | none => [FdAction.close f]), false) := by
  have hmime : sendMime (encodeString m) = m := by
    rw [sendMime, decode_encode_aux m hlen]
  rw [loop3Step, if_neg (fun h => h rfl), if_pos rfl, if_pos hf, hmime]

/-- Claim C1: in the serve loop, a send event carrying a writable
descriptor whose requested mime type is a key of the offer table writes
the full corresponding payload to the descriptor in one write call and
then closes it; for an unrecognized mime type the descriptor is closed
with zero preceding writes; in both cases the loop then continues with
the remaining events. -/
theorem serve_send_event (formats : List (List Nat × List Nat)) (m : List Nat)
    (f : Int) (rest : List Ev) (hf : 0 ≤ f) (hlen : m.length + 1 < 2 ^ 32) :
    (∀ data, lookupFmt m formats = some data →
      loop3 formats (Ev.msg idDCSource 0 (encodeString m) f :: rest) =
        prepend3 [FdAction.write f data, FdAction.close f] (loop3 formats rest)) ∧
    (lookupFmt m formats = none →
      loop3 formats (Ev.msg idDCSource 0 (encodeString m) f :: rest) =
        prepend3 [FdAction.close f] (loop3 formats rest)) := by
  constructor
  · intro data hd
    rw [loop3_cons_msg, loop3Step_send formats m f hf hlen, hd]
    rfl
  · intro hd
    rw [loop3_cons_msg, loop3Step_send formats m f hf hlen, hd]
    rfl

/-- Witness for serve_send_event: offer table with one entry keyed [1]
and payload [42]; a send for [1] writes [42] then closes fd 5, a send
for the unknown key [2] only closes fd 5. -/
theorem serve_send_event_witness :
    loop3 [([1], [42])] [Ev.msg idDCSource 0 (encodeString [1]) 5] =
        prepend3 [FdAction.write 5 [42], FdAction.close 5] (loop3 [([1], [42])] []) ∧
      loop3 [([1], [42])] [Ev.msg idDCSource 0 (encodeString [2]) 5] =
        prepend3 [FdAction.close 5] (loop3 [([1], [42])] []) :=
  ⟨(serve_send_event [([1], [42])] [1] 5 [] (by decide) (by norm_num)).1 [42] (by decide),
   (serve_send_event [([1], [42])] [2] 5 [] (by decide) (by norm_num)).2 (by decide)⟩

theorem loop3_finished_of_cancelled (formats : List (List Nat × List Nat)) :
    ∀ (evs : List Ev) (pl : List Nat) (f : Int),
      Ev.msg idDCSource 1 pl f ∈ evs →
      ∃ acts, loop3 formats evs = Loop3Res.finished acts := by
  intro evs
  induction evs with
  | nil =>
    intro pl f h
    exact absurd h (List.not_mem_nil _)
  | cons e rest ih =>
    intro pl f h
    cases e with
    | recvErr => exact ⟨[], rfl⟩
    | msg o op pl' f' =>
      rw [loop3_cons_msg]
      by_cases hstop : (loop3Step formats o op pl' f').2
      · rw [if_pos hstop]
        exact ⟨_, rfl⟩
      · rw [if_neg hstop]
        have hmem : Ev.msg idDCSource 1 pl f ∈ rest := by
          rcases List.mem_cons.mp h with heq | hm
          · exfalso
            apply hstop
            injection heq with e1 e2 e3 e4
            rw [← e1, ← e2]
            rfl
          · exact hm
        obtain ⟨acts, ha⟩ := ih pl f hmem
        rw [ha]
        exact ⟨_, rfl⟩

/-- Claim C2: once the session has entered the serving state (both
bootstrap loops completed with both required globals found), a
cancelled event on the data-source object anywhere in the remaining
script makes Serve return with no error, and the deferred close of the
connection socket runs. -/
theorem serve_cancelled_ok (formats : List (List Nat × List Nat)) (events : List Ev)
    (g : Globals) (a1 : List FdAction) (r1 : List Ev) (a2 : List FdAction)
    (r2 : List Ev) (pl : List Nat) (f : Int)
    (h1 : loop1 initGlobals events = .done g a1 r1)
    (hs : g.seatFound = true) (hd : g.dcManagerFound = true)
    (h2 : loop2 r1 = .done () a2 r2)
    (hc : Ev.msg idDCSource 1 pl f ∈ r2) :
    ∃ res, serveConn formats events = some res ∧
      res.outcome = .ok () ∧ res.connClosed = true := by
  obtain ⟨acts3, h3⟩ := loop3_finished_of_cancelled formats r2 pl f hc
  refine ⟨⟨.ok (), bootSends ++ setupSends g formats, a1 ++ a2 ++ acts3, true⟩,
    ?_, rfl, rfl⟩
  simp [serveConn, h1, hs, hd, h2, h3]

/-- Witness for serve_cancelled_ok on the concrete script script7. -/
theorem serve_cancelled_ok_witness :
    loop1 initGlobals script7 =
        LoopRes.done (⟨7, 9, true, true⟩ : Globals) []
          [Ev.msg idCallback2 0 [] (-1), Ev.msg idDCSource 1 [] (-1)] ∧
      loop2 [Ev.msg idCallback2 0 [] (-1), Ev.msg idDCSource 1 [] (-1)] =
        LoopRes.done () [] [Ev.msg idDCSource 1 [] (-1)] ∧
      ∃ res, serveConn [] script7 = some res ∧
        res.outcome = .ok () ∧ res.connClosed = true :=
  ⟨by decide, by decide,
   serve_cancelled_ok [] script7 ⟨7, 9, true, true⟩ []
     [Ev.msg idCallback2 0 [] (-1), Ev.msg idDCSource 1 [] (-1)] []
     [Ev.msg idDCSource 1 [] (-1)] [] (-1)
     (by decide) rfl rfl (by decide) (by decide)⟩

theorem bootSends_no_bind :
    ∀ m ∈ bootSends, ¬(m.objectID = idRegistry ∧ m.opcode = 0) ∧
      m.objectID ≠ idDCDevice := by
  decide

theorem loop1Global_eq (g : Globals) (n : Nat) (iface : List Nat)
    (hn : n < 2 ^ 32) (hlen : iface.length + 1 < 2 ^ 32) :
    loop1Global g (encodeUint32 n ++ encodeString iface) =
      (if iface = wlSeatIface then { g with seatName := n, seatFound := true }
       else if iface = dcManagerIface then
         { g with dcManagerName := n, dcManagerFound := true }
       else g) := by
  have hn' : n % 2 ^ 32 = n := Nat.mod_eq_of_lt hn
  have hname : leUint32 (encodeUint32 n ++ encodeString iface) = n := by
    rw [encodeUint32, leUint32_putUint32 _ _ (Nat.mod_lt _ (by norm_num)), hn']
  have hdec : decodeString ((encodeUint32 n ++ encodeString iface).drop 4) =
      .ok (iface, []) := by
    rw [encodeUint32, drop4_putUint32]
    exact decode_encode_aux _ hlen
  have hlenp : ¬((encodeUint32 n ++ encodeString iface).length < 4) := by
    rw [List.length_append, encodeUint32, putUint32_length]
    omega
  rw [loop1Global, if_neg hlenp]
  simp only [hname, hdec]

/-- Claim C6: if the first sync's done event fires without both
required globals having been advertised, Serve fails with a
protocol-capability error naming the missing interface (wl_seat is
checked first), the connection socket is closed, and the only requests
ever sent are the initial get_registry and sync — in particular no
registry bind and nothing to the data-control device. -/
theorem bootstrap_missing_global (formats : List (List Nat × List Nat))
    (events : List Ev) (g : Globals) (acts : List FdAction) (rest : List Ev)
    (hloop : loop1 initGlobals events = .done g acts rest)
    (hmiss : g.seatFound = false ∨ g.dcManagerFound = false) :
    ∃ res, serveConn formats events = some res ∧
      (if g.seatFound = false then
        res.outcome = .error (.missingGlobal wlSeatIface)
       else res.outcome = .error (.missingGlobal dcManagerIface)) ∧
      res.connClosed = true ∧
      res.sent = bootSends ∧
      ∀ m ∈ res.sent, ¬(m.objectID = idRegistry ∧ m.opcode = 0) ∧
        m.objectID ≠ idDCDevice := by
  cases hseat : g.seatFound with
  | false =>
    refine ⟨⟨.error (.missingGlobal wlSeatIface), bootSends, acts, true⟩,
      ?_, ?_, rfl, rfl, bootSends_no_bind⟩
    · simp [serveConn, hloop, hseat]
    · rw [if_pos rfl]
  | true =>
    have hdc : g.dcManagerFound = false := by
      rcases hmiss with h | h
      · rw [hseat] at h
        exact absurd h (by decide)
      · exact h
    refine ⟨⟨.error (.missingGlobal dcManagerIface), bootSends, acts, true⟩,
      ?_, ?_, rfl, rfl, bootSends_no_bind⟩
    · simp [serveConn, hloop, hseat, hdc]
    · rw [if_neg (by decide)]

/-- Witness for bootstrap_missing_global: a script in which the first
sync's done fires immediately, so neither global was advertised. -/
theorem bootstrap_missing_global_witness :
    loop1 initGlobals [Ev.msg idCallback1 0 [] (-1)] =
        LoopRes.done initGlobals [] [] ∧
      ∃ res, serveConn [] [Ev.msg idCallback1 0 [] (-1)] = some res ∧
        (if initGlobals.seatFound = false then
          res.outcome = .error (.missingGlobal wlSeatIface)
         else res.outcome = .error (.missingGlobal dcManagerIface)) ∧
        res.connClosed = true ∧
        res.sent = bootSends ∧
        ∀ m ∈ res.sent, ¬(m.objectID = idRegistry ∧ m.opcode = 0) ∧
          m.objectID ≠ idDCDevice :=
  ⟨by decide,
   bootstrap_missing_global [] [Ev.msg idCallback1 0 [] (-1)] initGlobals [] []
     (by decide) (Or.inl rfl)⟩

/-- Claim C7: on the scripted peer advertising global(7, wl_seat) and
global(9, zwlr_data_control_manager_v1) then done, the session sends
exactly two registry bind requests, naming 7 and 9, and no others;
moreover a (duplicate) advertisement of a required interface always
overwrites the stored name with the most recent one, and an unrelated
global leaves the discovery state unchanged. -/
theorem bootstrap_bind_requests :
    ((serveConn [] script7).map fun r =>
        r.sent.filter fun m => m.objectID == idRegistry && m.opcode == 0) =
      some [⟨idRegistry, 0, encodeUint32 7 ++ encodeString wlSeatIface ++
          encodeUint32 1 ++ encodeUint32 idSeat⟩,
        ⟨idRegistry, 0, encodeUint32 9 ++ encodeString dcManagerIface ++
          encodeUint32 2 ++ encodeUint32 idDCManager⟩] ∧
    (∀ g : Globals, ∀ n : Nat, n < 2 ^ 32 →
      loop1Global g (encodeUint32 n ++ encodeString wlSeatIface) =
          { g with seatName := n, seatFound := true } ∧
        loop1Global g (encodeUint32 n ++ encodeString dcManagerIface) =
          { g with dcManagerName := n, dcManagerFound := true }) ∧
    (∀ g : Globals, ∀ n : Nat, ∀ iface : List Nat,
      iface.length + 1 < 2 ^ 32 → iface ≠ wlSeatIface → iface ≠ dcManagerIface →
      loop1Global g (encodeUint32 n ++ encodeString iface) = g) := by
  refine ⟨by decide, ?_, ?_⟩
  · intro g n hn
    constructor
    · rw [loop1Global_eq g n wlSeatIface hn (by decide), if_pos rfl]
    · rw [loop1Global_eq g n dcManagerIface hn (by decide), if_neg (by decide),
        if_pos rfl]
  · intro g n iface hlen hne1 hne2
    have hdec : decodeString ((encodeUint32 n ++ encodeString iface).drop 4) =
        .ok (iface, []) := by
      rw [encodeUint32, drop4_putUint32]
      exact decode_encode_aux _ hlen
    have hlenp : ¬((encodeUint32 n ++ encodeString iface).length < 4) := by
      rw [List.length_append, encodeUint32, putUint32_length]
      omega
    rw [loop1Global, if_neg hlenp]
    simp only [hdec]
    rw [if_neg hne1, if_neg hne2]

/-- Witness for bootstrap_bind_requests: a fresh wl_seat advertisement
with name 7 records 7, and the unrelated one-byte interface [120]
("x") is ignored. -/
theorem bootstrap_bind_requests_witness :
    loop1Global initGlobals (encodeUint32 7 ++ encodeString wlSeatIface) =
        { initGlobals with seatName := 7, seatFound := true } ∧
      loop1Global initGlobals (encodeUint32 3 ++ encodeString [120]) = initGlobals :=
  ⟨(bootstrap_bind_requests.2.1 initGlobals 7 (by norm_num)).1,
   bootstrap_bind_requests.2.2 initGlobals 3 [120] (by norm_num) (by decide) (by decide)⟩

/-- Counterexample to claim C8 as stated: an event on an object other
than the data source (here the stray second-sync callback) does not end
the serve loop — with no further scripted events the loop is still
blocked waiting in readMsg, not returned. -/
theorem serve_loop_other_event_continues :
    loop3 [] [Ev.msg idCallback2 0 [] (-1)] = Loop3Res.blocked [] := by decide

/-- Claim C8 (amended): once serving has started, a transport error
(including an orderly remote close) ends the serve loop as a normal
termination with no error; an event other than send or cancelled on the
data-source object does not end the loop — its step actions are taken
and the loop continues with the remaining events; and whenever Serve
returns at all after entering the serving state, it returns no
error. -/
theorem serve_loop_termination (formats : List (List Nat × List Nat))
    (rest : List Ev) (o op : Nat) (pl : List Nat) (f : Int) :
    loop3 formats (Ev.recvErr :: rest) = Loop3Res.finished [] ∧
    (¬(o = idDCSource ∧ (op = 0 ∨ op = 1)) →
      loop3 formats (Ev.msg o op pl f :: rest) =
        prepend3 (loop3Step formats o op pl f).1 (loop3 formats rest)) ∧
    (∀ (events : List Ev) (g : Globals) (a1 : List FdAction) (r1 : List Ev)
        (a2 : List FdAction) (r2 : List Ev) (res : ServeRes),
      loop1 initGlobals events = .done g a1 r1 →
      g.seatFound = true → g.dcManagerFound = true →
      loop2 r1 = .done () a2 r2 →
      serveConn formats events = some res →
      res.outcome = .ok ()) := by
  refine ⟨rfl, ?_, ?_⟩
  · intro hno
    rw [loop3_cons_msg]
    have hstop : (loop3Step formats o op pl f).2 = false := by
      by_cases ho : o = idDCSource
      · subst ho
        rw [loop3Step, if_neg (fun h => h rfl)]
        have hop0 : op ≠ 0 := fun h => hno ⟨rfl, Or.inl h⟩
        have hop1 : op ≠ 1 := fun h => hno ⟨rfl, Or.inr h⟩
        rw [if_neg hop0, if_neg hop1]
      · rw [loop3Step, if_pos ho]
    rw [hstop]
    rfl
  · intro events g a1 r1 a2 r2 res h1 hs hd h2 hres
    cases h3 : loop3 formats r2 with
    | blocked as =>
      rw [show serveConn formats events = none by
        simp [serveConn, h1, hs, hd, h2, h3]] at hres
      exact Option.noConfusion hres
    | finished as =>
      have hsome : serveConn formats events =
          some ⟨.ok (), bootSends ++ setupSends g formats, a1 ++ a2 ++ as, true⟩ := by
        simp [serveConn, h1, hs, hd, h2, h3]
      rw [hsome] at hres
      have := Option.some.inj hres
      rw [← this]

/-- Witness for serve_loop_termination: a receive error ends the loop
at once, and the stray callback event is skipped while a following
cancelled event still terminates the loop. -/
theorem serve_loop_termination_witness :
    loop3 [] [Ev.recvErr] = Loop3Res.finished [] ∧
      loop3 [] [Ev.msg idCallback2 0 [] (-1), Ev.msg idDCSource 1 [] (-1)] =
        prepend3 (loop3Step [] idCallback2 0 [] (-1)).1
          (loop3 [] [Ev.msg idDCSource 1 [] (-1)]) :=
  ⟨(serve_loop_termination [] [] idCallback2 0 [] (-1)).1,
   (serve_loop_termination [] [Ev.msg idDCSource 1 [] (-1)] idCallback2 0 []
      (-1)).2.1 (by decide)⟩

/-- Counterexample to claim C9 as stated: an event on the data-source
object with the unhandled opcode 2 delivering fd 5 takes no fd action
at all — in particular fd 5 is never closed in (or after) the
iteration that consumed it. -/
theorem serve_loop_fd_leak :
    FdAction.close 5 ∉ (loop3 [] [Ev.msg idDCSource 2 [] 5]).acts := by
  decide

/-- Claim C9 (amended): a file descriptor received alongside a message
is closed within the iteration that produced it as the first fd action
of both bootstrap loops on every path, and in the serve loop whenever
the event is on an object other than the data source or is a send
event; an fd accompanying a data-source event of any other opcode
(cancelled included) is not closed. -/
theorem fd_closed_per_iteration (formats : List (List Nat × List Nat))
    (g : Globals) (o op : Nat) (pl : List Nat) (f : Int) (rest : List Ev)
    (hf : 0 ≤ f) :
    (loop1 g (Ev.msg o op pl f :: rest)).acts.head? = some (FdAction.close f) ∧
    (loop2 (Ev.msg o op pl f :: rest)).acts.head? = some (FdAction.close f) ∧
    ((o ≠ idDCSource ∨ op = 0) → FdAction.close f ∈ (loop3Step formats o op pl f).1) := by
  refine ⟨?_, ?_, ?_⟩
  · by_cases hro : o = idRegistry ∧ op = 0
    · simp [loop1, hf, hro, prepend1_acts, idRegistry, idCallback1]
    · by_cases hcb : o = idCallback1 ∧ op = 0
      · simp [loop1, hf, hro, hcb, LoopRes.acts, idRegistry, idCallback1]
      · simp [loop1, hf, hro, hcb, prepend1_acts]
  · by_cases hcb : o = idCallback2 ∧ op = 0
    · simp [loop2, hf, hcb, LoopRes.acts, idCallback2]
    · simp [loop2, hf, hcb, prepend1_acts]
  · intro hcase
    by_cases ho : o = idDCSource
    · have hop : op = 0 := by
        rcases hcase with h | h
        · exact absurd ho h
        · exact h
      subst ho hop
      rw [loop3Step, if_neg (fun h => h rfl), if_pos rfl, if_pos hf]
      cases lookupFmt (sendMime pl) formats with
      | none => exact List.mem_singleton.mpr rfl
      | some data => exact List.mem_cons_of_mem _ (List.mem_singleton.mpr rfl)
    · rw [loop3Step, if_pos ho, if_pos hf]
      exact List.mem_singleton.mpr rfl

/-- Witness for fd_closed_per_iteration at a registry event and a stray
callback event, both delivering fd 4. -/
theorem fd_closed_per_iteration_witness :
    (loop1 initGlobals [Ev.msg idRegistry 5 [] 4]).acts.head? =
        some (FdAction.close 4) ∧
      FdAction.close 4 ∈ (loop3Step [] idCallback2 0 [] 4).1 :=
  ⟨(fd_closed_per_iteration [] initGlobals idRegistry 5 [] 4 [] (by decide)).1,
   (fd_closed_per_iteration [] initGlobals idCallback2 0 [] 4 [] (by decide)).2.2
     (Or.inl (by decide))⟩

/-- Claim C5: with the Wayland-session variable unset (os.Getenv
returns the empty string), WriteMultiFormat makes the conventional
plain-text-only fallback call with exactly the plain argument, dropping
html and never spawning the daemon, and returns whatever that fallback
call returns, for any result-producing callees. -/
theorem write_multiformat_fallback (html plain : List Nat) :
    writeMultiFormatCall [] html plain = ClipCall.fallbackWrite plain ∧
      ∀ (α : Type) (writeAll : List Nat → α) (spawnServer : List Nat → List Nat → α),
        writeMultiFormat [] writeAll spawnServer html plain = writeAll plain :=
  ⟨rfl, fun _ _ _ => rfl⟩

end Wayland
